import Mathlib

/-!
Verification of the network digital-twin visualization engine
(`src/components/network_digitaltwin.js`): graph data model, degree
calculation, category classification, threshold filtering, the simulation
tick handler's boundary clamp, and the drag lifecycle handlers.

Positions and weights are modelled as rationals (the source's float
arithmetic here is only comparison, `max`/`min` and assignment, which are
exact), node degrees as naturals, and the degree threshold as an integer
(the UI slider parses an integer, and error-handling claims quantify over
negative values).
-/

/-- A parsed node record: `{ id, label }` plus the `degree` field added by
the degree calculator (`node.degree = nodeDegrees[node.id] || 0`). -/
structure Node where
  id : String
  label : String
  degree : Nat
deriving DecidableEq

/-- A parsed edge record: `{ source, target, id, weight }` as extracted by
the edge regex; `source`/`target` are node id strings. -/
structure Edge where
  source : String
  target : String
  id : Nat
  weight : Rat
deriving DecidableEq

/-! ### String helpers mirroring the JavaScript string predicates -/

/-- `lcHasLead p l` is true when the character list `p` is an initial
segment of `l` (the list-level content of JS `String.startsWith`). -/
def lcHasLead : List Char → List Char → Bool
  | [], _ => true
  | _ :: _, [] => false
  | a :: as, b :: bs => a == b && lcHasLead as bs

/-- `lcHasSub p l` is true when `p` occurs contiguously somewhere in `l`
(the list-level content of JS `String.includes`). -/
def lcHasSub (p : List Char) : List Char → Bool
  | [] => lcHasLead p []
  | b :: bs => lcHasLead p (b :: bs) || lcHasSub p bs

/-- JS `hay.includes(pat)`. -/
def sIncludes (hay pat : String) : Bool := lcHasSub pat.data hay.data

/-- JS `hay.startsWith(pat)`. -/
def sStarts (hay pat : String) : Bool := lcHasLead pat.data hay.data

/-- JS `hay.endsWith(pat)`. -/
def sEnds (hay pat : String) : Bool := lcHasLead pat.data.reverse hay.data.reverse

/-- ASCII uppercase letter, the character class `[A-Z]`. -/
def isUpperAZ (c : Char) : Bool := 'A' ≤ c && c ≤ 'Z'

/-- ASCII digit, the character class `\d`. -/
def isDigit09 (c : Char) : Bool := '0' ≤ c && c ≤ '9'

/-- The regex `^[A-Z]+\d*$`: one or more uppercase letters followed by zero
or more digits, spanning the whole string. Greedy `takeWhile` is exact here
because no character is both uppercase and a digit. -/
def tfRegex (l : List Char) : Bool :=
  !(l.takeWhile isUpperAZ).isEmpty && (l.dropWhile isUpperAZ).all isDigit09

/-! ### Category classifier (`nodeCategories` / `getNodeCategory`) -/

/-- The fixed category enumeration, in the declaration order of the
`nodeCategories` object literal. -/
inductive Category where
  | Signaling
  | TranscriptionFactors
  | Receptors
  | Immune
  | Cancer
  | Ribosomal
  | CellCycle
  | Other
deriving DecidableEq

/-- The `Signaling` membership test from `nodeCategories`. -/
def sigTest (id : String) : Bool :=
  sIncludes id "MAPK" || sIncludes id "PIK3" || sIncludes id "AKT" ||
  sIncludes id "SRC" || sIncludes id "JAK" || sIncludes id "STAT" ||
  sIncludes id "RAF" || sIncludes id "RAS"

/-- The `Transcription Factors` test: length at least 4, matches
`^[A-Z]+\d*$`, and does not start with `RPL`, `RPS` or `MT`. -/
def tfTest (id : String) : Bool :=
  decide (id.length ≥ 4) && tfRegex id.data &&
  !(sStarts id "RPL") && !(sStarts id "RPS") && !(sStarts id "MT")

/-- The `Receptors` test. -/
def recTest (id : String) : Bool :=
  sIncludes id "EGFR" || sEnds id "R" || sIncludes id "CD" ||
  sIncludes id "HLA" || sIncludes id "TLR"

/-- The `Immune` test. -/
def immTest (id : String) : Bool :=
  sStarts id "IL" || sStarts id "IFN" || sStarts id "TNF" ||
  sStarts id "CD" || sStarts id "HLA" || sIncludes id "TLR"

/-- The `Cancer` test: membership in the explicit gene list
(`[...].includes(id)`). -/
def canTest (id : String) : Bool :=
  id == "EGFR" || id == "PTEN" || id == "TP53" || id == "MYC" ||
  id == "CTNNB1" || id == "KRAS" || id == "BRAF" || id == "CDKN2A" ||
  id == "PIK3CA" || id == "ATM" || id == "MDM2"

/-- The `Ribosomal` test. -/
def ribTest (id : String) : Bool := sStarts id "RPL" || sStarts id "RPS"

/-- The `Cell Cycle` test. -/
def ccTest (id : String) : Bool :=
  sIncludes id "CDK" || sIncludes id "CCND" || sIncludes id "CDC" ||
  sIncludes id "CDKN"

/-- The entries of the `nodeCategories` object, in declaration order
(`Object.entries` iterates string keys in insertion order); the `Other`
entry carries the constant-true test `(id) => true`. -/
def nodeCategoriesList : List (Category × (String → Bool)) :=
  [(Category.Signaling, sigTest),
   (Category.TranscriptionFactors, tfTest),
   (Category.Receptors, recTest),
   (Category.Immune, immTest),
   (Category.Cancer, canTest),
   (Category.Ribosomal, ribTest),
   (Category.CellCycle, ccTest),
   (Category.Other, fun _ => true)]

/-- The `for ... of Object.entries(nodeCategories)` loop body of
`getNodeCategory`: skip the `Other` entry, return the first category whose
test accepts the id, and fall through to `Other`. -/
def loopCategories : List (Category × (String → Bool)) → String → Category
  | [], _ => Category.Other
  | (cat, t) :: rest, id =>
    if cat = Category.Other then loopCategories rest id
    else if t id then cat else loopCategories rest id

/-- `getNodeCategory`, applied to a node's id string. -/
def getNodeCategory (id : String) : Category := loopCategories nodeCategoriesList id

/-- The spec's description of the classifier: evaluate the predicates in
the fixed order Signaling, Transcription Factors, Receptors, Immune,
Cancer, Ribosomal, Cell Cycle and return the first match, else `Other`. -/
def classifySpec (id : String) : Category :=
  if sigTest id then Category.Signaling
  else if tfTest id then Category.TranscriptionFactors
  else if recTest id then Category.Receptors
  else if immTest id then Category.Immune
  else if canTest id then Category.Cancer
  else if ribTest id then Category.Ribosomal
  else if ccTest id then Category.CellCycle
  else Category.Other

/-! ### Degree calculator (`nodeDegrees`) -/

/-- JS object-property assignment `m[k] = v` on a string-keyed map. -/
def setKey (m : String → Option Nat) (k : String) (v : Nat) : String → Option Nat :=
  fun s => if s = k then some v else m s

/-- The initialization loop: `nodes.forEach(node => nodeDegrees[node.id] = 0)`
starting from the empty object. -/
def initDegrees (nodes : List Node) : String → Option Nat :=
  nodes.foldl (fun m n => setKey m n.id 0) (fun _ => none)

/-- One iteration of the edge loop:
`nodeDegrees[edge.source] = (nodeDegrees[edge.source] || 0) + 1` and then
the same for `edge.target` (reading the already-updated map, so a self-loop
increments the same key twice). -/
def addEdgeDegrees (m : String → Option Nat) (e : Edge) : String → Option Nat :=
  let m1 := setKey m e.source ((m e.source).getD 0 + 1)
  setKey m1 e.target ((m1 e.target).getD 0 + 1)

/-- The `nodeDegrees` map after both loops. -/
def nodeDegrees (nodes : List Node) (edges : List Edge) : String → Option Nat :=
  edges.foldl addEdgeDegrees (initDegrees nodes)

/-- The degree written onto a node: `nodeDegrees[node.id] || 0`. -/
def degreeOf (nodes : List Node) (edges : List Edge) (id : String) : Nat :=
  (nodeDegrees nodes edges id).getD 0

/-! ### Filter engine (`filteredNodes` / `filteredEdges`) -/

/-- `data.nodes.filter(node => node.degree > nodeDegreeThreshold)`. -/
def filteredNodes (nodes : List Node) (dt : Int) : List Node :=
  nodes.filter fun n => decide (dt < (n.degree : Int))

/-- `new Set(filteredNodes.map(node => node.id))`, as the id list whose
membership the edge filter queries. -/
def filteredNodeIds (nodes : List Node) (dt : Int) : List String :=
  (filteredNodes nodes dt).map Node.id

/-- `data.edges.filter(edge => edge.weight >= weightThreshold &&
filteredNodeIds.has(edge.source) && filteredNodeIds.has(edge.target))`. -/
def filteredEdges (nodes : List Node) (edges : List Edge) (dt : Int) (wt : Rat) : List Edge :=
  edges.filter fun e =>
    decide (wt ≤ e.weight) &&
    (filteredNodeIds nodes dt).contains e.source &&
    (filteredNodeIds nodes dt).contains e.target

/-- Modelled from the spec: clamping an out-of-domain degree threshold to
the declared slider domain `[0, 30]`. The source contains no such clamping;
this definition exists to compare the spec's claimed recovery behavior with
the source's actual raw use of the threshold. -/
def clampDegreeThreshold (dt : Int) : Int := max 0 (min 30 dt)

/-- Modelled from the spec: node filtering after the claimed clamping of
the degree threshold. -/
def filteredNodesClampedSpec (nodes : List Node) (dt : Int) : List Node :=
  filteredNodes nodes (clampDegreeThreshold dt)

/-! ### Simulation tick and drag lifecycle -/

/-- The SVG canvas width, from `const width = 800`. -/
def width : Rat := 800

/-- The SVG canvas height, from `const height = 600`. -/
def height : Rat := 600

/-- A node as the simulation sees it: its `degree` (which determines its
rendered radius `Math.sqrt(degree)*2 + 3`), its current position and the
drag pin `fx`/`fy` (null when unpinned). -/
structure SimNode where
  degree : Nat
  x : Rat
  y : Rat
  fx : Option Rat
  fy : Option Rat
deriving DecidableEq

/-- Modelled from the spec: the d3 force simulation's per-tick handling of
fixed nodes is not part of this repository; the spec states that for pinned
nodes position integration is skipped and the position is forced to the pin
(`fx`/`fy` override the computed position when non-null). -/
def applyPin (n : SimNode) : SimNode :=
  { n with x := n.fx.getD n.x, y := n.fy.getD n.y }

/-- The repository's tick handler mutation
`d.x = Math.max(5, Math.min(width - 5, d.x))` and the same for `y`:
positions are clamped into `[5, width-5] × [5, height-5]` with the constant
margin 5 (identical in both the labelled and unlabelled tick handlers). -/
def clampTick (n : SimNode) : SimNode :=
  { n with x := max 5 (min (width - 5) n.x), y := max 5 (min (height - 5) n.y) }

/-- One rendered simulation step: an arbitrary force computation proposes a
new position, the pin (if any) overrides it, and the repository's tick
handler clamps the result. Quantifying theorems over `force` captures
"regardless of the forces acting on it". -/
def simStep (force : SimNode → Rat × Rat) (n : SimNode) : SimNode :=
  clampTick (applyPin { n with x := (force n).1, y := (force n).2 })

/-- Any number of successive steps, each with its own force computation. -/
def stepMany (fs : List (SimNode → Rat × Rat)) (n : SimNode) : SimNode :=
  fs.foldl (fun m f => simStep f m) n

/-- The node's rendered radius `r = Math.sqrt(degree) * 2 + 3` from the
circle's `r` attribute, stated relationally over the rationals:
`r` is the radius of a node of degree `d` when `r ≥ 3` and
`(r - 3)^2 = 4 * d` (i.e. `r - 3 = 2 * sqrt d`). -/
def isNodeRadius (d : Nat) (r : Rat) : Prop := 3 ≤ r ∧ (r - 3) ^ 2 = 4 * d

/-- The simulation control state touched by the drag handlers: the
`alphaTarget` resting energy and whether stepping is running
(`.restart()` sets it running). -/
structure SimControl where
  alphaTarget : Rat
  running : Bool
deriving DecidableEq

/-- `dragstarted(event)`: when `event.active` is 0 (no other active drag),
`simulation.alphaTarget(0.3).restart()`; always pin the subject at its
current position. -/
def dragstarted (active : Nat) (sim : SimControl) (n : SimNode) : SimControl × SimNode :=
  (if active = 0 then { alphaTarget := 3 / 10, running := true } else sim,
   { n with fx := some n.x, fy := some n.y })

/-- `dragged(event)`: set the subject's pin to the pointer coordinates. -/
def dragged (eventX eventY : Rat) (n : SimNode) : SimNode :=
  { n with fx := some eventX, fy := some eventY }

/-- `dragended(event)`: when `event.active` is 0, `simulation.alphaTarget(0)`;
always clear the subject's pin to null. -/
def dragended (active : Nat) (sim : SimControl) (n : SimNode) : SimControl × SimNode :=
  (if active = 0 then { sim with alphaTarget := 0 } else sim,
   { n with fx := none, fy := none })

/-! ## Helper lemmas -/

lemma getNodeCategory_eq_classifySpec (id : String) :
    getNodeCategory id = classifySpec id := rfl

lemma getNodeCategory_eq_cancer_iff (id : String) :
    getNodeCategory id = Category.Cancer ↔
      sigTest id = false ∧ tfTest id = false ∧ recTest id = false ∧
      immTest id = false ∧ canTest id = true := by
  rw [getNodeCategory_eq_classifySpec, classifySpec]
  split_ifs with h1 h2 h3 h4 h5 h6 h7 <;> simp_all

lemma length_filter_mono {α : Type} (p q : α → Bool) (l : List α)
    (h : ∀ a, q a = true → p a = true) :
    (l.filter q).length ≤ (l.filter p).length := by
  induction l with
  | nil => simp
  | cons a l ih =>
    cases hq : q a with
    | true =>
      have hp := h a hq
      simp [List.filter_cons, hq, hp]
      omega
    | false =>
      cases hp : p a <;> simp [List.filter_cons, hq, hp] <;> omega

lemma foldl_setKey_zero (nodes : List Node) :
    ∀ (m : String → Option Nat) (k : String), (∀ s, (m s).getD 0 = 0) →
      ((nodes.foldl (fun m n => setKey m n.id 0) m) k).getD 0 = 0 := by
  induction nodes with
  | nil => intro m k hm; exact hm k
  | cons n ns ih =>
    intro m k hm
    simp only [List.foldl_cons]
    refine ih _ k ?_
    intro s
    simp only [setKey]
    split
    · rfl
    · exact hm s

lemma initDegrees_getD (nodes : List Node) (k : String) :
    ((initDegrees nodes) k).getD 0 = 0 :=
  foldl_setKey_zero nodes _ k (fun _ => rfl)

lemma addEdgeDegrees_getD (m : String → Option Nat) (e : Edge) (k : String) :
    ((addEdgeDegrees m e) k).getD 0 =
      (m k).getD 0 + (if e.source = k then 1 else 0) + (if e.target = k then 1 else 0) := by
  simp only [addEdgeDegrees, setKey]
  by_cases h1 : k = e.target <;> by_cases h2 : k = e.source <;>
    simp_all [eq_comm] <;> omega

lemma foldl_addEdgeDegrees_getD (edges : List Edge) :
    ∀ (m : String → Option Nat) (k : String),
      ((edges.foldl addEdgeDegrees m) k).getD 0 =
        (m k).getD 0 + (edges.filter fun e => decide (e.source = k)).length
          + (edges.filter fun e => decide (e.target = k)).length := by
  induction edges with
  | nil => intro m k; simp
  | cons e es ih =>
    intro m k
    simp only [List.foldl_cons, List.filter_cons]
    rw [ih, addEdgeDegrees_getD]
    by_cases h1 : e.source = k <;> by_cases h2 : e.target = k <;>
      simp [h1, h2] <;> omega

lemma mem_filteredNodeIds (nodes : List Node) (dt : Int) (s : String) :
    (filteredNodeIds nodes dt).contains s = true ↔
      ∃ n ∈ filteredNodes nodes dt, n.id = s := by
  simp [filteredNodeIds, List.mem_map]

lemma simStep_pinned (f : SimNode → Rat × Rat) (n : SimNode) (px py : Rat)
    (hfx : n.fx = some px) (hfy : n.fy = some py)
    (h1 : 5 ≤ px) (h2 : px ≤ width - 5) (h3 : 5 ≤ py) (h4 : py ≤ height - 5) :
    (simStep f n).x = px ∧ (simStep f n).y = py ∧
    (simStep f n).fx = some px ∧ (simStep f n).fy = some py := by
  refine ⟨?_, ?_, hfx, hfy⟩
  · simp only [simStep, clampTick, applyPin, hfx, Option.getD_some]
    rw [min_eq_right h2, max_eq_right h1]
  · simp only [simStep, clampTick, applyPin, hfy, Option.getD_some]
    rw [min_eq_right h4, max_eq_right h3]

lemma stepMany_pinned (fs : List (SimNode → Rat × Rat)) :
    ∀ (f : SimNode → Rat × Rat) (n : SimNode) (px py : Rat),
      n.fx = some px → n.fy = some py →
      5 ≤ px → px ≤ width - 5 → 5 ≤ py → py ≤ height - 5 →
      (stepMany (f :: fs) n).x = px ∧ (stepMany (f :: fs) n).y = py := by
  induction fs with
  | nil =>
    intro f n px py hfx hfy h1 h2 h3 h4
    have h := simStep_pinned f n px py hfx hfy h1 h2 h3 h4
    exact ⟨h.1, h.2.1⟩
  | cons g gs ih =>
    intro f n px py hfx hfy h1 h2 h3 h4
    have h := simStep_pinned f n px py hfx hfy h1 h2 h3 h4
    exact ih g (simStep f n) px py h.2.2.1 h.2.2.2 h1 h2 h3 h4

/-! ## Claim theorems -/

/-- C1: for every node set, edge set and threshold pair, the filter
produces exactly the nodes whose degree strictly exceeds the degree
threshold (in source order), and exactly the edges whose weight is at least
the weight threshold and whose source and target ids are both ids of
visible nodes (in source order). -/
theorem filter_visible_sets_correct (nodes : List Node) (edges : List Edge)
    (dt : Int) (wt : Rat) :
    (filteredNodes nodes dt).Sublist nodes ∧
    (∀ n : Node, n ∈ filteredNodes nodes dt ↔ n ∈ nodes ∧ dt < (n.degree : Int)) ∧
    (filteredEdges nodes edges dt wt).Sublist edges ∧
    (∀ e : Edge, e ∈ filteredEdges nodes edges dt wt ↔
      e ∈ edges ∧ wt ≤ e.weight ∧
      (∃ n ∈ filteredNodes nodes dt, n.id = e.source) ∧
      (∃ n ∈ filteredNodes nodes dt, n.id = e.target)) := by
  refine ⟨List.filter_sublist _, ?_, List.filter_sublist _, ?_⟩
  · intro n
    simp [filteredNodes, List.mem_filter]
  · intro e
    simp only [filteredEdges, List.mem_filter, Bool.and_eq_true, decide_eq_true_eq,
      mem_filteredNodeIds, and_assoc]

/-- C2: each node's computed degree equals the number of edges in the full
edge set with that node's id as source plus the number with it as target
(a self-loop therefore contributes 2, and an unreferenced node keeps 0). -/
theorem degree_counts_endpoints (nodes : List Node) (edges : List Edge) (n : Node) :
    degreeOf nodes edges n.id =
      (edges.filter fun e => decide (e.source = n.id)).length +
      (edges.filter fun e => decide (e.target = n.id)).length := by
  unfold degreeOf nodeDegrees
  rw [foldl_addEdgeDegrees_getD, initDegrees_getD]
  omega

/-- C3: classification is total and deterministic (it is a function), it
evaluates the predicates in the fixed order Signaling, Transcription
Factors, Receptors, Immune, Cancer, Ribosomal, Cell Cycle returning the
first match, and it returns Other exactly when none of the seven
predicates matches. -/
theorem classifier_total_first_match (id : String) :
    getNodeCategory id = classifySpec id ∧
    (getNodeCategory id = Category.Other ↔
      sigTest id = false ∧ tfTest id = false ∧ recTest id = false ∧
      immTest id = false ∧ canTest id = false ∧ ribTest id = false ∧
      ccTest id = false) := by
  refine ⟨getNodeCategory_eq_classifySpec id, ?_⟩
  rw [getNodeCategory_eq_classifySpec, classifySpec]
  split_ifs with h1 h2 h3 h4 h5 h6 h7 <;> simp_all

/-- C4 counterexample: the id EGFR does not classify as Cancer. -/
theorem egfr_not_cancer : getNodeCategory "EGFR" ≠ Category.Cancer := by decide

/-- C4 amended: the id EGFR classifies as Transcription Factors, because
the Transcription Factors predicate (length at least 4, uppercase letters
then digits, not RPL/RPS/MT) matches EGFR before the Cancer list is ever
consulted. -/
theorem egfr_transcription_factor :
    getNodeCategory "EGFR" = Category.TranscriptionFactors := by decide

/-- C5 counterexample: a node pinned outside the canvas (fx = 1000 with
width 800) renders at the clamp bound 795 after a step, not at its pin. -/
theorem pinned_offcanvas_clamped :
    (simStep (fun _ => (0, 0)) ⟨0, 0, 0, some 1000, some 300⟩).fx = some 1000 ∧
    (simStep (fun _ => (0, 0)) ⟨0, 0, 0, some 1000, some 300⟩).x = 795 ∧
    (795 : Rat) ≠ 1000 := by
  refine ⟨rfl, ?_, by norm_num⟩
  norm_num [simStep, clampTick, applyPin, width, height]

/-- C5 amended: while a node's fx and fy are non-null and the pin lies
inside the clamp region `[5, width-5] × [5, height-5]`, its rendered
position after every simulation step equals (fx, fy) exactly, across any
number of steps, regardless of the forces acting on it; for pins outside
that region the tick handler's clamp overrides the pin. -/
theorem pinned_in_canvas_position_eq (n : SimNode) (px py : Rat)
    (hfx : n.fx = some px) (hfy : n.fy = some py)
    (h1 : 5 ≤ px) (h2 : px ≤ width - 5) (h3 : 5 ≤ py) (h4 : py ≤ height - 5) :
    ∀ (f : SimNode → Rat × Rat) (fs : List (SimNode → Rat × Rat)),
      (stepMany (f :: fs) n).x = px ∧ (stepMany (f :: fs) n).y = py :=
  fun f fs => stepMany_pinned fs f n px py hfx hfy h1 h2 h3 h4

/-- C5 witness: a node pinned at (50, 60) renders at (50, 60) after a
step under a force that proposes (0, 0). -/
theorem pinned_in_canvas_position_eq_witness :
    (stepMany [fun _ => ((0 : Rat), (0 : Rat))] ⟨0, 0, 0, some 50, some 60⟩).x = 50 ∧
    (stepMany [fun _ => ((0 : Rat), (0 : Rat))] ⟨0, 0, 0, some 50, some 60⟩).y = 60 :=
  pinned_in_canvas_position_eq ⟨0, 0, 0, some 50, some 60⟩ 50 60 rfl rfl
    (by norm_num) (by norm_num [width]) (by norm_num) (by norm_num [height])
    (fun _ => (0, 0)) []

/-- C6 counterexample: the tick handler clamps with the constant margin 5,
not the node's radius: a degree-4 node (radius `sqrt 4 * 2 + 3 = 7`) pushed
to x = 0 renders at x = 5, below its radius. -/
theorem clamp_ignores_radius :
    isNodeRadius 4 7 ∧
    (simStep (fun _ => (0, 300)) ⟨4, 100, 300, none, none⟩).x = 5 ∧
    ¬ (7 ≤ (simStep (fun _ => (0, 300)) ⟨4, 100, 300, none, none⟩).x) := by
  have hx : (simStep (fun _ => ((0 : Rat), (300 : Rat))) ⟨4, 100, 300, none, none⟩).x = 5 := by
    norm_num [simStep, clampTick, applyPin, width, height]
  refine ⟨⟨by norm_num, by norm_num [isNodeRadius]⟩, hx, ?_⟩
  rw [hx]
  norm_num

/-- C6 amended: after every simulation step, every node's rendered
position lies within `[5, width-5]` on the x axis and `[5, height-5]` on
the y axis — a constant margin of 5, independent of the node's radius. -/
theorem clamp_constant_margin (f : SimNode → Rat × Rat) (n : SimNode) :
    5 ≤ (simStep f n).x ∧ (simStep f n).x ≤ width - 5 ∧
    5 ≤ (simStep f n).y ∧ (simStep f n).y ≤ height - 5 := by
  simp only [simStep, clampTick, applyPin]
  refine ⟨le_max_left _ _, ?_, le_max_left _ _, ?_⟩
  · exact max_le (by norm_num [width]) (min_le_left _ _)
  · exact max_le (by norm_num [height]) (min_le_left _ _)

/-- C7: with the node and edge sets fixed, raising the degree threshold
never increases the number of visible nodes, and raising the weight
threshold (degree threshold fixed) never increases the number of visible
edges. -/
theorem filter_monotone_thresholds (nodes : List Node) (edges : List Edge)
    (dt dt' : Int) (wt wt' : Rat) (hd : dt ≤ dt') (hw : wt ≤ wt') :
    (filteredNodes nodes dt').length ≤ (filteredNodes nodes dt).length ∧
    (filteredEdges nodes edges dt wt').length ≤ (filteredEdges nodes edges dt wt).length := by
  constructor
  · apply length_filter_mono
    intro n hn
    simp only [decide_eq_true_eq] at hn ⊢
    omega
  · apply length_filter_mono
    intro e he
    simp only [Bool.and_eq_true, decide_eq_true_eq] at he ⊢
    exact ⟨⟨le_trans hw he.1.1, he.1.2⟩, he.2⟩

/-- C7 witness: concrete monotonicity instance at thresholds 0 ≤ 1 and
1/4 ≤ 1/2. -/
theorem filter_monotone_thresholds_witness :
    (filteredNodes [⟨"A", "A", 2⟩] 1).length ≤ (filteredNodes [⟨"A", "A", 2⟩] 0).length ∧
    (filteredEdges [⟨"A", "A", 2⟩] [⟨"A", "A", 0, 1⟩] 0 (1 / 2)).length ≤
      (filteredEdges [⟨"A", "A", 2⟩] [⟨"A", "A", 0, 1⟩] 0 (1 / 4)).length :=
  filter_monotone_thresholds [⟨"A", "A", 2⟩] [⟨"A", "A", 0, 1⟩] 0 1 (1 / 4) (1 / 2)
    (by norm_num) (by norm_num)

/-- C8: on dragstart with no other active drag, alphaTarget is raised to
the positive resting value 0.3 and stepping resumes, and the node is
pinned at its current position; every drag move re-pins at the pointer
coordinates; on dragend with no other active drag, alphaTarget returns to
0 and the pin is cleared to null. -/
theorem drag_lifecycle_spec (active : Nat) (sim : SimControl) (n : SimNode)
    (ex ey : Rat) (h : active = 0) :
    ((dragstarted active sim n).1.alphaTarget = 3 / 10 ∧
     0 < (dragstarted active sim n).1.alphaTarget ∧
     (dragstarted active sim n).1.running = true ∧
     (dragstarted active sim n).2.fx = some n.x ∧
     (dragstarted active sim n).2.fy = some n.y) ∧
    ((dragged ex ey n).fx = some ex ∧ (dragged ex ey n).fy = some ey) ∧
    ((dragended active sim n).1.alphaTarget = 0 ∧
     (dragended active sim n).2.fx = none ∧
     (dragended active sim n).2.fy = none) := by
  subst h
  refine ⟨⟨rfl, by norm_num [dragstarted], rfl, rfl, rfl⟩, ⟨rfl, rfl⟩, ⟨rfl, rfl, rfl⟩⟩

/-- C8 witness: the drag lifecycle at a concrete state with no other
active drag. -/
theorem drag_lifecycle_spec_witness :
    ((dragstarted 0 ⟨1, false⟩ ⟨2, 10, 20, none, none⟩).1.alphaTarget = 3 / 10 ∧
     0 < (dragstarted 0 ⟨1, false⟩ ⟨2, 10, 20, none, none⟩).1.alphaTarget ∧
     (dragstarted 0 ⟨1, false⟩ ⟨2, 10, 20, none, none⟩).1.running = true ∧
     (dragstarted 0 ⟨1, false⟩ ⟨2, 10, 20, none, none⟩).2.fx = some (10 : Rat) ∧
     (dragstarted 0 ⟨1, false⟩ ⟨2, 10, 20, none, none⟩).2.fy = some (20 : Rat)) ∧
    ((dragged 7 8 ⟨2, 10, 20, none, none⟩).fx = some 7 ∧
     (dragged 7 8 ⟨2, 10, 20, none, none⟩).fy = some 8) ∧
    ((dragended 0 ⟨1, false⟩ ⟨2, 10, 20, none, none⟩).1.alphaTarget = 0 ∧
     (dragended 0 ⟨1, false⟩ ⟨2, 10, 20, none, none⟩).2.fx = none ∧
     (dragended 0 ⟨1, false⟩ ⟨2, 10, 20, none, none⟩).2.fy = none) :=
  drag_lifecycle_spec 0 ⟨1, false⟩ ⟨2, 10, 20, none, none⟩ 7 8 rfl

/-- C9 counterexample: with a degree-0 node and degree threshold -1, the
engine keeps the node (0 > -1), while clamping the threshold to the
declared domain [0, 30] would drop it — the engine does not clamp. -/
theorem no_threshold_clamping :
    filteredNodes [⟨"A", "A", 0⟩] (-1) = [⟨"A", "A", 0⟩] ∧
    filteredNodesClampedSpec [⟨"A", "A", 0⟩] (-1) = [] ∧
    filteredNodes [⟨"A", "A", 0⟩] (-1) ≠ filteredNodesClampedSpec [⟨"A", "A", 0⟩] (-1) := by
  refine ⟨by decide, by decide, by decide⟩

/-- C9 amended: out-of-domain thresholds are never fatal — filtering is a
total function on the raw value and no clamping occurs; in particular any
negative degree threshold simply admits every node. -/
theorem negative_degree_threshold_admits_all (nodes : List Node) (dt : Int)
    (h : dt < 0) : filteredNodes nodes dt = nodes := by
  unfold filteredNodes
  rw [List.filter_eq_self]
  intro n _
  simp only [decide_eq_true_eq]
  omega

/-- C9 witness: a negative degree threshold keeps the degree-0 node. -/
theorem negative_degree_threshold_admits_all_witness :
    filteredNodes [⟨"B", "B", 0⟩] (-5) = [⟨"B", "B", 0⟩] :=
  negative_degree_threshold_admits_all [⟨"B", "B", 0⟩] (-5) (by norm_num)

/-- C10: classification returns Cancer exactly for the ids MYC and ATM;
every other gene of the explicit Cancer list is captured earlier, by the
Signaling, Transcription Factors or Receptors predicate. -/
theorem cancer_iff_myc_or_atm :
    (∀ id : String, getNodeCategory id = Category.Cancer ↔ id = "MYC" ∨ id = "ATM") ∧
    getNodeCategory "PTEN" = Category.TranscriptionFactors ∧
    getNodeCategory "TP53" = Category.TranscriptionFactors ∧
    getNodeCategory "CTNNB1" = Category.TranscriptionFactors ∧
    getNodeCategory "KRAS" = Category.Signaling ∧
    getNodeCategory "BRAF" = Category.Signaling ∧
    getNodeCategory "CDKN2A" = Category.Receptors ∧
    getNodeCategory "PIK3CA" = Category.Signaling ∧
    getNodeCategory "MDM2" = Category.TranscriptionFactors ∧
    getNodeCategory "EGFR" = Category.TranscriptionFactors := by
  refine ⟨?_, by decide, by decide, by decide, by decide, by decide, by decide,
    by decide, by decide, by decide⟩
  intro id
  constructor
  · intro h
    rw [getNodeCategory_eq_cancer_iff] at h
    obtain ⟨h1, h2, h3, h4, h5⟩ := h
    simp only [canTest, Bool.or_eq_true, beq_iff_eq, or_assoc] at h5
    rcases h5 with rfl | rfl | rfl | rfl | rfl | rfl | rfl | rfl | rfl | rfl | rfl
    · exact absurd h2 (by decide)
    · exact absurd h2 (by decide)
    · exact absurd h2 (by decide)
    · exact Or.inl rfl
    · exact absurd h2 (by decide)
    · exact absurd h1 (by decide)
    · exact absurd h1 (by decide)
    · exact absurd h3 (by decide)
    · exact absurd h1 (by decide)
    · exact Or.inr rfl
    · exact absurd h2 (by decide)
  · rintro (rfl | rfl) <;> decide
